import Mathlib

/-
A shallow embedding, in Lean, of the logo-localization and redaction routines of
the File-Cleanser-and-Analysis repository, together with proofs of the testable
properties stated in its specification.

Embedded source functions:
* `detect_logos` in `src/logo_streamlit.py` (multi-scale grayscale template
  matching; called `detectLogos` here, with the hard-coded scale list and
  threshold lifted to parameters — they appear fixed in `detectLogosApp`);
* `detect_logo` in `src/utils/logo_detector.py` (single-scale full-color
  presence check, threshold 0.8; `detectLogo`);
* `redact_logo_from_image` in `src/data_cleanser.py` (full-color matching plus
  filled-rectangle redaction; `redactLogoFromImage`, drawing loop `redact`);
* `redact_logo` in `src/utils/file_cleanser_analysis_app.py` (`redactLogo`);
* `detect_logos` in `src/utils/text_extractor.py` (folder-based multi-logo
  detection; `detectLogosFolder`).

Modelling conventions: images are width/height plus a pixel function (reads are
masked to the in-bounds region, mirroring the materialized numpy arrays);
machine floats are modelled by exact rationals; the normalized cross
correlation comparison `score >= threshold` of `cv2.matchTemplate`
(TM_CCOEFF_NORMED) is expressed without square roots by comparing squares,
with a zero denominator treated as score 0 (for TM_CCOEFF_NORMED a vanishing
denominator forces a vanishing numerator, and OpenCV then yields 0); a Python
call that raises an uncaught exception is modelled by `PyResult.raised`.
-/

/-- An 8-bit color pixel. Decoded OpenCV images are BGR and PIL images RGB; the
matching arithmetic sums symmetrically over channels, so one record serves both. -/
structure Pix where
  r : ℕ
  g : ℕ
  b : ℕ
deriving DecidableEq

/-- The opaque black fill `(0, 0, 0)` used by the redaction rectangles. -/
def black : Pix := { r := 0, g := 0, b := 0 }

/-- The green `(0, 255, 0)` used by the detection outlines in `detect_logos`. -/
def green : Pix := { r := 0, g := 255, b := 0 }

/-- A decoded color image: a width, a height and a pixel map. Only the values at
coordinates `x < w`, `y < h` represent the underlying array. -/
structure Image where
  w : ℕ
  h : ℕ
  px : ℕ → ℕ → Pix

/-- A single-channel (grayscale) image. -/
structure GImage where
  w : ℕ
  h : ℕ
  px : ℕ → ℕ → ℕ

/-- OpenCV luminance conversion (RGB2GRAY / BGR2GRAY) in its 8-bit fixed-point
form: `Y = (4899 R + 9617 G + 1868 B + 2^13) >> 14`, i.e. the rounded
`0.299 R + 0.587 G + 0.114 B`. -/
def gray8 (p : Pix) : ℕ := (4899 * p.r + 9617 * p.g + 1868 * p.b + 8192) / 16384

/-- `cv2.cvtColor(img, COLOR_RGB2GRAY)`: the grayscale image of a color image.
Out-of-bounds reads of the embedding are masked to 0, mirroring the fact that
the materialized numpy array has exactly `w * h` entries. -/
def grayImage (img : Image) : GImage :=
  { w := img.w, h := img.h,
    px := fun x y => if x < img.w ∧ y < img.h then gray8 (img.px x y) else 0 }

/-- Two images hold identical pixel data: same dimensions and same pixels at
every in-bounds coordinate. -/
def pixelEq (a b : Image) : Prop :=
  a.w = b.w ∧ a.h = b.h ∧ ∀ x < a.w, ∀ y < a.h, a.px x y = b.px x y

/-- Two images have pixel-identical luminance channels (their color channels may
differ). -/
def lumEq (a b : Image) : Prop :=
  a.w = b.w ∧ a.h = b.h ∧ ∀ x < a.w, ∀ y < a.h, gray8 (a.px x y) = gray8 (b.px x y)

instance (a b : Image) : Decidable (pixelEq a b) := by
  unfold pixelEq; infer_instance

instance (a b : Image) : Decidable (lumEq a b) := by
  unfold lumEq; infer_instance

/-- Sum of `f i j` over the window `i < w`, `j < h`. -/
def wsum (w h : ℕ) (f : ℕ → ℕ → ℚ) : ℚ :=
  ((List.range h).map fun j => ((List.range w).map fun i => f i j).sum).sum

/-- One channel of a (template, document) pair fed to TM_CCOEFF_NORMED:
`tplC i j` reads the template, `imgC x y` reads the document. -/
structure Chan where
  tplC : ℕ → ℕ → ℚ
  imgC : ℕ → ℕ → ℚ

/-- Mean of the template over one channel (window `tw × th`). -/
def tplMean (tw th : ℕ) (c : Chan) : ℚ := wsum tw th c.tplC / (tw * th)

/-- Mean of the document window anchored at `(x, y)` over one channel. -/
def winMean (tw th x y : ℕ) (c : Chan) : ℚ :=
  wsum tw th (fun i j => c.imgC (x + i) (y + j)) / (tw * th)

/-- Per-channel numerator of TM_CCOEFF_NORMED at anchor `(x, y)`: the sum of
products of mean-centered template and window values. -/
def chanNum (tw th x y : ℕ) (c : Chan) : ℚ :=
  wsum tw th fun i j =>
    (c.tplC i j - tplMean tw th c) * (c.imgC (x + i) (y + j) - winMean tw th x y c)

/-- Per-channel sum of squares of the mean-centered template. -/
def chanDT (tw th : ℕ) (c : Chan) : ℚ :=
  wsum tw th fun i j => (c.tplC i j - tplMean tw th c) ^ 2

/-- Per-channel sum of squares of the mean-centered window at `(x, y)`. -/
def chanDI (tw th x y : ℕ) (c : Chan) : ℚ :=
  wsum tw th fun i j => (c.imgC (x + i) (y + j) - winMean tw th x y c) ^ 2

/-- Numerator of TM_CCOEFF_NORMED at `(x, y)`: summed over all channels. -/
def nccNum (tw th x y : ℕ) (cs : List Chan) : ℚ := (cs.map (chanNum tw th x y)).sum

/-- Square of the TM_CCOEFF_NORMED denominator at `(x, y)`: the product of the
channel-summed template and window square sums. -/
def nccDen2 (tw th x y : ℕ) (cs : List Chan) : ℚ :=
  (cs.map (chanDT tw th)).sum * (cs.map (chanDI tw th x y)).sum

/-- `res[y, x] >= t` for the TM_CCOEFF_NORMED score map, expressed without a
square root: with numerator `n` and squared denominator `d`, the score is
`n / sqrt d`, so for `d ≠ 0` the comparison reduces to sign analysis plus a
comparison of squares; `d = 0` forces `n = 0` and OpenCV yields score 0. -/
def nccGE (tw th x y : ℕ) (cs : List Chan) (t : ℚ) : Bool :=
  if nccDen2 tw th x y cs = 0 then decide (t ≤ 0)
  else if t ≤ 0 then
    decide (0 ≤ nccNum tw th x y cs) ||
      decide (nccNum tw th x y cs ^ 2 ≤ t ^ 2 * nccDen2 tw th x y cs)
  else
    decide (0 ≤ nccNum tw th x y cs) &&
      decide (t ^ 2 * nccDen2 tw th x y cs ≤ nccNum tw th x y cs ^ 2)

/-- All valid anchors of a `tw × th` template inside a `dw × dh` document, in
the raster order of `np.where` (row-major, i.e. `y` outer, `x` inner). -/
def placements (dw dh tw th : ℕ) : List (ℕ × ℕ) :=
  ((List.range (dh - th + 1)).map fun y =>
    (List.range (dw - tw + 1)).map fun x => (x, y)).flatten

/-- The single grayscale channel of a (document, template) pair. -/
def grayChans (docG tplG : GImage) : List Chan :=
  [{ tplC := fun i j => (tplG.px i j : ℚ), imgC := fun x y => (docG.px x y : ℚ) }]

/-- In-bounds read of a color image; out-of-bounds coordinates are masked,
mirroring the materialized numpy array. -/
def pxIn (img : Image) (x y : ℕ) : Pix :=
  if x < img.w ∧ y < img.h then img.px x y else black

/-- One color channel, selected by `sel`, of a (document, template) pair. -/
def chanOf (sel : Pix → ℕ) (doc tpl : Image) : Chan :=
  { tplC := fun i j => (sel (pxIn tpl i j) : ℚ),
    imgC := fun x y => (sel (pxIn doc x y) : ℚ) }

/-- The three color channels of a (document, template) pair: OpenCV's
TM_CCOEFF_NORMED on multi-channel images centers each channel separately and
sums numerator and denominator over all channels. -/
def colorChans (doc tpl : Image) : List Chan :=
  [chanOf Pix.r doc tpl, chanOf Pix.g doc tpl, chanOf Pix.b doc tpl]

/-- `np.where(res >= t)` as an anchor list for grayscale matching, guarded by
the `cv2.matchTemplate` size assertion (the template must be non-empty and at
most as large as the document, else OpenCV raises). -/
def matchLocsG (docG tplG : GImage) (t : ℚ) : Option (List (ℕ × ℕ)) :=
  if 0 < tplG.w ∧ 0 < tplG.h ∧ tplG.w ≤ docG.w ∧ tplG.h ≤ docG.h then
    some ((placements docG.w docG.h tplG.w tplG.h).filter fun p =>
      nccGE tplG.w tplG.h p.1 p.2 (grayChans docG tplG) t)
  else none

/-- `len(np.where(res >= t)[0]) > 0` for grayscale matching, unguarded. -/
def grayAnyB (docG tplG : GImage) (t : ℚ) : Bool :=
  (placements docG.w docG.h tplG.w tplG.h).any fun p =>
    nccGE tplG.w tplG.h p.1 p.2 (grayChans docG tplG) t

/-- `(res >= t).any()` for grayscale matching, guarded by the size assertion. -/
def grayAnyGE (docG tplG : GImage) (t : ℚ) : Option Bool :=
  if 0 < tplG.w ∧ 0 < tplG.h ∧ tplG.w ≤ docG.w ∧ tplG.h ≤ docG.h then
    some (grayAnyB docG tplG t)
  else none

/-- `np.where(res >= t)` as an anchor list for full-color matching, guarded by
the size assertion. This is the match set that `redact_logo_from_image`
thresholds (its DetectionResult). -/
def colorMatchLocs (doc tpl : Image) (t : ℚ) : Option (List (ℕ × ℕ)) :=
  if 0 < tpl.w ∧ 0 < tpl.h ∧ tpl.w ≤ doc.w ∧ tpl.h ≤ doc.h then
    some ((placements doc.w doc.h tpl.w tpl.h).filter fun p =>
      nccGE tpl.w tpl.h p.1 p.2 (colorChans doc tpl) t)
  else none

/-- `(res >= t).any()` for full-color matching, guarded by the size assertion. -/
def colorAnyGE (doc tpl : Image) (t : ℚ) : Option Bool :=
  if 0 < tpl.w ∧ 0 < tpl.h ∧ tpl.w ≤ doc.w ∧ tpl.h ≤ doc.h then
    some ((placements doc.w doc.h tpl.w tpl.h).any fun p =>
      nccGE tpl.w tpl.h p.1 p.2 (colorChans doc tpl) t)
  else none

/-- Python `int()` applied to a real value: truncation toward zero. This is the
`int(logo_gray.shape[1] * scale)` of `detect_logos`. -/
def pyInt (q : ℚ) : ℤ := if 0 ≤ q then ⌊q⌋ else ⌈q⌉

/-- Clamp an integer index into `[0, n - 1]` (for edge replication). -/
def clampIdx (i : ℤ) (n : ℕ) : ℕ := (min (max i 0) ((n : ℤ) - 1)).toNat

/-- Clamped (edge-replicating) read of a grayscale image at integer coordinates. -/
def gpx (g : GImage) (i j : ℤ) : ℚ := (g.px (clampIdx i g.w) (clampIdx j g.h) : ℚ)

/-- Bilinear interpolation of a grayscale image at rational source coordinates. -/
def bilin (g : GImage) (sx sy : ℚ) : ℚ :=
  (1 - (sx - ⌊sx⌋)) * (1 - (sy - ⌊sy⌋)) * gpx g ⌊sx⌋ ⌊sy⌋ +
    (sx - ⌊sx⌋) * (1 - (sy - ⌊sy⌋)) * gpx g (⌊sx⌋ + 1) ⌊sy⌋ +
    (1 - (sx - ⌊sx⌋)) * (sy - ⌊sy⌋) * gpx g ⌊sx⌋ (⌊sy⌋ + 1) +
    (sx - ⌊sx⌋) * (sy - ⌊sy⌋) * gpx g (⌊sx⌋ + 1) (⌊sy⌋ + 1)

/-- The source coordinate sampled for destination index `k` when resizing a
dimension of size `src` to size `dst` (pixel-center alignment). -/
def srcCoord (dst src k : ℕ) : ℚ := (((k : ℚ) + 1 / 2) * src) / dst - 1 / 2

/-- Round a rational to the nearest natural (half away from zero on the
nonnegative range used here). -/
def ratRound (q : ℚ) : ℕ := (⌊q + 1 / 2⌋).toNat

/-- `cv2.resize(img, (w, h))` with its default bilinear interpolation, modelled
with exact rational arithmetic (OpenCV quantizes the interpolation weights; no
claim below depends on the interpolated values, only on the output size). -/
def resizeG (g : GImage) (w h : ℕ) : GImage :=
  { w := w, h := h,
    px := fun x y =>
      if x < w ∧ y < h then ratRound (bilin g (srcCoord w g.w x) (srcCoord h g.h y))
      else 0 }

/-- The width `int(logo_gray.shape[1] * scale)` computed by `detect_logos`. -/
def scaledW (tplG : GImage) (s : ℚ) : ℤ := pyInt ((tplG.w : ℚ) * s)

/-- The height `int(logo_gray.shape[0] * scale)` computed by `detect_logos`. -/
def scaledH (tplG : GImage) (s : ℚ) : ℤ := pyInt ((tplG.h : ℚ) * s)

/-- The skip test of `detect_logos`: `if w > img_gray.shape[1] or
h > img_gray.shape[0]: continue`, in terms of the original images. -/
def skipCond (doc tpl : Image) (s : ℚ) : Prop :=
  (doc.w : ℤ) < scaledW (grayImage tpl) s ∨ (doc.h : ℤ) < scaledH (grayImage tpl) s

instance (doc tpl : Image) (s : ℚ) : Decidable (skipCond doc tpl s) := by
  unfold skipCond; infer_instance

/-- One accepted match of `detect_logos`: an anchor, the scaled template
dimensions, and the scale that produced it (the score itself is only ever
compared against the threshold, never stored). -/
structure Box where
  x : ℕ
  y : ℕ
  w : ℕ
  h : ℕ
  scale : ℚ
deriving DecidableEq

/-- Outcome of a Python call: normal return, or an uncaught exception. -/
inductive PyResult (α : Type) where
  | raised : PyResult α
  | ret : α → PyResult α
deriving DecidableEq

/-- Outcome of one iteration of the scale loop of `detect_logos`: the scale is
skipped, or a library call raises (`cv2.resize` on a nonpositive size,
`cv2.matchTemplate` on an oversized template), or a list of boxes is found. -/
inductive ScaleOut where
  | skip : ScaleOut
  | err : ScaleOut
  | found : List Box → ScaleOut

/-- One iteration of the scale loop of `detect_logos`: compute the truncated
scaled dimensions, skip the scale if either exceeds the document, resize the
template and collect every anchor whose score reaches the threshold. -/
def scaleStep (docG tplG : GImage) (t s : ℚ) : ScaleOut :=
  if (docG.w : ℤ) < scaledW tplG s ∨ (docG.h : ℤ) < scaledH tplG s then ScaleOut.skip
  else if scaledW tplG s ≤ 0 ∨ scaledH tplG s ≤ 0 then ScaleOut.err
  else
    match matchLocsG docG (resizeG tplG (scaledW tplG s).toNat (scaledH tplG s).toNat) t with
    | none => ScaleOut.err
    | some pts => ScaleOut.found (pts.map fun p =>
        { x := p.1, y := p.2, w := (scaledW tplG s).toNat, h := (scaledH tplG s).toNat,
          scale := s })

/-- The scale loop of `detect_logos`, concatenating per-scale matches in scale
order (an uncaught exception aborts the whole call). -/
def runScales (docG tplG : GImage) (t : ℚ) : List ℚ → PyResult (List Box)
  | [] => PyResult.ret []
  | s :: rest =>
    match scaleStep docG tplG t s with
    | ScaleOut.err => PyResult.raised
    | ScaleOut.skip => runScales docG tplG t rest
    | ScaleOut.found bs =>
      match runScales docG tplG t rest with
      | PyResult.raised => PyResult.raised
      | PyResult.ret more => PyResult.ret (bs ++ more)

/-- The state visible when `detect_logos` returns: the document and template it
was given (never written to — rectangles are drawn on `output_img = img.copy()`),
the annotated output image, the collected boxes and the `detected` flag. -/
structure DetectState where
  document : Image
  template : Image
  output : Image
  boxes : List Box
  detected : Bool

/-- `cv2.rectangle(output, pt, (pt+w, pt+h), (0,255,0), 2)`: the thickness-2
green outline of a box, modelled as the one-pixel band around its border (no
claim depends on the exact pixels of the outline). -/
def drawRectOutline (img : Image) (b : Box) : Image :=
  { w := img.w, h := img.h,
    px := fun x y =>
      if (b.x ≤ x + 1 ∧ x ≤ b.x + b.w + 1 ∧ b.y ≤ y + 1 ∧ y ≤ b.y + b.h + 1) ∧
          ¬(b.x + 1 ≤ x ∧ x + 1 ≤ b.x + b.w ∧ b.y + 1 ≤ y ∧ y + 1 ≤ b.y + b.h) then green
      else img.px x y }

/-- `detect_logos` from `src/logo_streamlit.py`, for one (document, template)
pair: both images are converted to grayscale, each scale is tried in order, and
the matches are returned together with the final program state. The source
hard-codes `scales = [0.5, 0.75, 1.0, 1.25, 1.5]` and threshold `0.6`
(see `detectLogosApp`); they are parameters here, as in the specification's
`locate`. -/
def detectLogos (doc tpl : Image) (scales : List ℚ) (t : ℚ) : PyResult DetectState :=
  match runScales (grayImage doc) (grayImage tpl) t scales with
  | PyResult.raised => PyResult.raised
  | PyResult.ret bs =>
    PyResult.ret
      { document := doc, template := tpl,
        output := bs.foldl drawRectOutline doc,
        boxes := bs, detected := !bs.isEmpty }

/-- `detect_logos` with its hard-coded scale list and threshold. -/
def detectLogosApp (doc tpl : Image) : PyResult DetectState :=
  detectLogos doc tpl [1 / 2, 3 / 4, 1, 5 / 4, 3 / 2] (3 / 5)

/-- The DetectionResult of a `detect_logos` call: `none` when the call raised. -/
def resultBoxes (r : PyResult DetectState) : Option (List Box) :=
  match r with
  | PyResult.raised => none
  | PyResult.ret st => some st.boxes

/-- The boxes of a `detect_logos` call, defaulting to `[]` when it raised. -/
def boxesOf (r : PyResult DetectState) : List Box := (resultBoxes r).getD []

/-- The document image held by the returned state, if the call returned. -/
def retDoc (r : PyResult DetectState) : Option Image :=
  match r with
  | PyResult.raised => none
  | PyResult.ret st => some st.document

/-- The template image held by the returned state, if the call returned. -/
def retTpl (r : PyResult DetectState) : Option Image :=
  match r with
  | PyResult.raised => none
  | PyResult.ret st => some st.template

/-- `detect_logo` from `src/utils/logo_detector.py`: decode both images
(`cv2.imread`, full color), match the template against the document with
TM_CCOEFF_NORMED at threshold 0.8, and return `(res >= 0.8).any()`; the
enclosing `try/except` turns every failure — a decode failure or a raising
library call — into `False`. -/
def detectLogo (docDec tplDec : Option Image) : Bool :=
  match docDec, tplDec with
  | some d, some t => (colorAnyGE d t (4 / 5)).getD false
  | _, _ => false

/-- `cv2.rectangle(img, (x1,y1), (x2,y2), fill, -1)`: fill the axis-aligned
rectangle whose two opposite corners are `(x1, y1)` and `(x2, y2)`, both
corners included (OpenCV clips at the image border; reads of the embedding are
compared in-bounds only). -/
def fillRect (img : Image) (x1 y1 x2 y2 : ℕ) (f : Pix) : Image :=
  { w := img.w, h := img.h,
    px := fun x y => if x1 ≤ x ∧ x ≤ x2 ∧ y1 ≤ y ∧ y ≤ y2 then f else img.px x y }

/-- The redaction drawing loop shared by `redact_logo_from_image`
(`src/data_cleanser.py`) and `redact_logo`
(`src/utils/file_cleanser_analysis_app.py`): for each box, fill the rectangle
from its anchor to `(x + w, y + h)` — both corners inclusive, as
`cv2.rectangle` does — with the fill color. -/
def redact (d : Image) (boxes : List Box) (f : Pix) : Image :=
  boxes.foldl (fun im b => fillRect im b.x b.y (b.x + b.w) (b.y + b.h) f) d

/-- `redact_logo_from_image` from `src/data_cleanser.py`: if either `cv2.imread`
returns `None`, print an error and return `None`; otherwise match the
full-color template at the given threshold (default 0.8) and black out every
match (an oversized template makes `cv2.matchTemplate` raise — uncaught here). -/
def redactLogoFromImage (docDec tplDec : Option Image) (t : ℚ) : PyResult (Option Image) :=
  match docDec, tplDec with
  | some main, some logo =>
    match colorMatchLocs main logo t with
    | none => PyResult.raised
    | some pts =>
      PyResult.ret (some (redact main
        (pts.map fun p => { x := p.1, y := p.2, w := logo.w, h := logo.h, scale := 1 }) black))
  | _, _ => PyResult.ret none

/-- `redact_logo` from `src/utils/file_cleanser_analysis_app.py`: the same
matching and drawing on already-decoded images, threshold 0.8. -/
def redactLogo (main logo : Image) : PyResult Image :=
  match colorMatchLocs main logo (4 / 5) with
  | none => PyResult.raised
  | some pts =>
    PyResult.ret (redact main
      (pts.map fun p => { x := p.1, y := p.2, w := logo.w, h := logo.h, scale := 1 }) black)

/-- A pixel strictly inside a BoundingBox `(x, y, width, height)` in the sense
of the specification: `b.x ≤ x < b.x + b.w` and `b.y ≤ y < b.y + b.h`. -/
def insideBox (b : Box) (x y : ℕ) : Prop :=
  b.x ≤ x ∧ x < b.x + b.w ∧ b.y ≤ y ∧ y < b.y + b.h

/-- A pixel inside the corner-inclusive rectangle actually filled by
`cv2.rectangle`: `b.x ≤ x ≤ b.x + b.w` and `b.y ≤ y ≤ b.y + b.h`. -/
def insideClosedBox (b : Box) (x y : ℕ) : Prop :=
  b.x ≤ x ∧ x ≤ b.x + b.w ∧ b.y ≤ y ∧ y ≤ b.y + b.h

instance (b : Box) (x y : ℕ) : Decidable (insideBox b x y) := by
  unfold insideBox; infer_instance

instance (b : Box) (x y : ℕ) : Decidable (insideClosedBox b x y) := by
  unfold insideClosedBox; infer_instance

/-- The proviso under which one folder entry cannot make `cv2.matchTemplate`
raise: if the file decoded, the logo is non-empty and fits in the document. -/
def logoFits (img : Image) (ol : Option Image) : Bool :=
  match ol with
  | none => true
  | some l => decide (0 < l.w) && decide (0 < l.h) && decide (l.w ≤ img.w) && decide (l.h ≤ img.h)

/-- The file loop of the folder-based `detect_logos`: undecodable files are
skipped (`if logo is None: continue`), every other file contributes the boolean
`len(loc[0]) > 0` under its name; a raising `cv2.matchTemplate` aborts the
whole call. -/
def goFiles (imgG : GImage) (t : ℚ) : List (String × Option Image) → PyResult (List (String × Bool))
  | [] => PyResult.ret []
  | (_, none) :: rest => goFiles imgG t rest
  | (name, some logo) :: rest =>
    match grayAnyGE imgG (grayImage logo) t with
    | none => PyResult.raised
    | some b =>
      match goFiles imgG t rest with
      | PyResult.raised => PyResult.raised
      | PyResult.ret r => PyResult.ret ((name, b) :: r)

/-- `detect_logos` from `src/utils/text_extractor.py`: detect every logo of a
folder in an image. The folder is modelled as `none` when it does not exist
(`if not os.path.exists(logo_folder): return results`) and otherwise as the
listing of its files, each paired with its decode result. Matching is
single-scale grayscale at the given threshold (default 0.8). -/
def detectLogosFolder (image : Image) (folder : Option (List (String × Option Image)))
    (t : ℚ) : PyResult (List (String × Bool)) :=
  match folder with
  | none => PyResult.ret []
  | some files => goFiles (grayImage image) t files

/-- A 2-by-1 document: a white pixel then a black pixel. -/
def imgD : Image := { w := 2, h := 1, px := fun x _ => if x = 0 then { r := 255, g := 255, b := 255 } else black }

/-- The same pixel data as `imgD`, written differently. -/
def imgD2 : Image := { w := 2, h := 1, px := fun x _ => if 1 ≤ x then black else { r := 255, g := 255, b := 255 } }

/-- A 2-by-1 image: a pure red pixel (luminance 76) then a black pixel. -/
def imgE1 : Image :=
  { w := 2, h := 1, px := fun x _ => if x = 0 then { r := 255, g := 0, b := 0 } else black }

/-- A 2-by-1 image: a green pixel `(0, 130, 0)` (luminance 76, like pure red)
then a black pixel — luminance-identical to `imgE1`, color-different. -/
def imgE2 : Image :=
  { w := 2, h := 1, px := fun x _ => if x = 0 then { r := 0, g := 130, b := 0 } else black }

/-- A 1-by-1 white image. -/
def img1 : Image := { w := 1, h := 1, px := fun _ _ => { r := 255, g := 255, b := 255 } }

/-- A 2-by-2 black image (used as an oversized template for a 1-by-1 document). -/
def imgBig : Image := { w := 2, h := 2, px := fun _ _ => black }

/-- A 2-by-2 black document. -/
def imgD4 : Image := { w := 2, h := 2, px := fun _ _ => black }

/-- A 3-by-2 black template (scale 0.5 truncates its width 3 to 1). -/
def imgT32 : Image := { w := 3, h := 2, px := fun _ _ => black }

/-- A 3-by-3 white image. -/
def imgW3 : Image := { w := 3, h := 3, px := fun _ _ => { r := 255, g := 255, b := 255 } }

/-- A 1-by-1 box anchored at the origin. -/
def bx : Box := { x := 0, y := 0, w := 1, h := 1, scale := 1 }

/-- The box produced by matching `imgD` against itself at scale 1. -/
def bx1 : Box := { x := 0, y := 0, w := 2, h := 1, scale := 1 }

/-- A logo folder whose single file decodes to a logo larger than a 1-by-1
document. -/
def folderBad : List (String × Option Image) := [("big.png", some imgBig)]

/-- A logo folder with one decodable fitting logo and one undecodable file. -/
def folderOk : List (String × Option Image) := [("a.png", some img1), ("bad.png", none)]

/-! ### Helper lemmas -/

theorem wsum_nonneg {w h : ℕ} {f : ℕ → ℕ → ℚ} (hf : ∀ i j, 0 ≤ f i j) : 0 ≤ wsum w h f := by
  apply List.sum_nonneg
  intro q hq
  obtain ⟨j, _, rfl⟩ := List.mem_map.mp hq
  apply List.sum_nonneg
  intro r hr
  obtain ⟨i, _, rfl⟩ := List.mem_map.mp hr
  exact hf i j

theorem nccDen2_nonneg (tw th x y : ℕ) (cs : List Chan) : 0 ≤ nccDen2 tw th x y cs := by
  apply mul_nonneg
  · apply List.sum_nonneg
    intro q hq
    obtain ⟨c, _, rfl⟩ := List.mem_map.mp hq
    exact wsum_nonneg fun i j => sq_nonneg _
  · apply List.sum_nonneg
    intro q hq
    obtain ⟨c, _, rfl⟩ := List.mem_map.mp hq
    exact wsum_nonneg fun i j => sq_nonneg _

/-- Raising the threshold can only shrink the set of anchors whose score
passes: `score ≥ t₂` and `t₁ ≤ t₂` give `score ≥ t₁`. -/
theorem nccGE_mono {tw th x y : ℕ} {cs : List Chan} {t₁ t₂ : ℚ} (h12 : t₁ ≤ t₂)
    (h : nccGE tw th x y cs t₂ = true) : nccGE tw th x y cs t₁ = true := by
  have hd : 0 ≤ nccDen2 tw th x y cs := nccDen2_nonneg tw th x y cs
  unfold nccGE at h ⊢
  by_cases hd0 : nccDen2 tw th x y cs = 0
  · simp only [hd0, if_pos, decide_eq_true_eq] at h ⊢
    exact le_trans h12 h
  · simp only [hd0, if_neg, if_false, reduceIte] at h ⊢
    by_cases h2 : t₂ ≤ 0
    · have h1 : t₁ ≤ 0 := le_trans h12 h2
      simp only [h2, if_pos, h1, Bool.or_eq_true, decide_eq_true_eq] at h ⊢
      rcases h with hn | hsq
      · exact Or.inl hn
      · right
        have ht : t₂ ^ 2 ≤ t₁ ^ 2 := by nlinarith
        calc nccNum tw th x y cs ^ 2 ≤ t₂ ^ 2 * nccDen2 tw th x y cs := hsq
          _ ≤ t₁ ^ 2 * nccDen2 tw th x y cs := by
              exact mul_le_mul_of_nonneg_right ht hd
    · simp only [h2, if_neg, if_false, Bool.and_eq_true, decide_eq_true_eq, reduceIte] at h
      by_cases h1 : t₁ ≤ 0
      · simp only [h1, if_pos, Bool.or_eq_true, decide_eq_true_eq, reduceIte]
        exact Or.inl h.1
      · simp only [h1, if_neg, if_false, Bool.and_eq_true, decide_eq_true_eq, reduceIte]
        refine ⟨h.1, ?_⟩
        have ht : t₁ ^ 2 ≤ t₂ ^ 2 := by nlinarith
        calc t₁ ^ 2 * nccDen2 tw th x y cs ≤ t₂ ^ 2 * nccDen2 tw th x y cs :=
              mul_le_mul_of_nonneg_right ht hd
          _ ≤ nccNum tw th x y cs ^ 2 := h.2

theorem mem_placements {dw dh tw th : ℕ} {p : ℕ × ℕ} :
    p ∈ placements dw dh tw th ↔ p.1 < dw - tw + 1 ∧ p.2 < dh - th + 1 := by
  obtain ⟨px, py⟩ := p
  unfold placements
  constructor
  · intro hp
    obtain ⟨row, hrow, hpr⟩ := List.mem_flatten.mp hp
    obtain ⟨y, hy, rfl⟩ := List.mem_map.mp hrow
    obtain ⟨x, hx, hxy⟩ := List.mem_map.mp hpr
    obtain ⟨rfl, rfl⟩ := Prod.mk.injEq .. ▸ hxy
    exact ⟨List.mem_range.mp hx, List.mem_range.mp hy⟩
  · rintro ⟨h1, h2⟩
    apply List.mem_flatten.mpr
    refine ⟨(List.range (dw - tw + 1)).map fun x => (x, py),
      List.mem_map.mpr ⟨py, List.mem_range.mpr h2, rfl⟩, ?_⟩
    exact List.mem_map.mpr ⟨px, List.mem_range.mpr h1, rfl⟩

theorem pixelEq_lumEq {a b : Image} (h : pixelEq a b) : lumEq a b :=
  ⟨h.1, h.2.1, fun x hx y hy => by rw [h.2.2 x hx y hy]⟩

/-- Luminance-identical images have equal grayscale conversions (the embedding
masks out-of-bounds reads, so the grayscale images agree as values). -/
theorem grayImage_congr {a b : Image} (h : lumEq a b) : grayImage a = grayImage b := by
  obtain ⟨hw, hh, hpx⟩ := h
  unfold grayImage
  have hfun : (fun x y => if x < a.w ∧ y < a.h then gray8 (a.px x y) else 0) =
      (fun x y => if x < b.w ∧ y < b.h then gray8 (b.px x y) else 0) := by
    funext x y
    by_cases hb : x < a.w ∧ y < a.h
    · rw [if_pos hb, if_pos (by rw [← hw, ← hh]; exact hb), hpx x hb.1 y hb.2]
    · rw [if_neg hb, if_neg (by rw [← hw, ← hh]; exact hb)]
  rw [hfun, hw, hh]

theorem resultBoxes_detectLogos (doc tpl : Image) (sc : List ℚ) (t : ℚ) :
    resultBoxes (detectLogos doc tpl sc t) =
      match runScales (grayImage doc) (grayImage tpl) t sc with
      | PyResult.raised => none
      | PyResult.ret bs => some bs := by
  unfold detectLogos resultBoxes
  cases runScales (grayImage doc) (grayImage tpl) t sc <;> rfl

theorem retDoc_detectLogos (doc tpl : Image) (sc : List ℚ) (t : ℚ) :
    retDoc (detectLogos doc tpl sc t) =
      (resultBoxes (detectLogos doc tpl sc t)).map fun _ => doc := by
  unfold detectLogos retDoc resultBoxes
  cases runScales (grayImage doc) (grayImage tpl) t sc <;> rfl

theorem retTpl_detectLogos (doc tpl : Image) (sc : List ℚ) (t : ℚ) :
    retTpl (detectLogos doc tpl sc t) =
      (resultBoxes (detectLogos doc tpl sc t)).map fun _ => tpl := by
  unfold detectLogos retTpl resultBoxes
  cases runScales (grayImage doc) (grayImage tpl) t sc <;> rfl

theorem scaleStep_skip {docG tplG : GImage} (t : ℚ) {s : ℚ}
    (h : (docG.w : ℤ) < scaledW tplG s ∨ (docG.h : ℤ) < scaledH tplG s) :
    scaleStep docG tplG t s = ScaleOut.skip := by
  unfold scaleStep
  rw [if_pos h]

/-- Every box emitted by one scale iteration carries that scale, has the
truncated scaled template dimensions, and fits inside the document. -/
theorem scaleStep_found_mem {docG tplG : GImage} {t s : ℚ} {bs : List Box} {b : Box}
    (h : scaleStep docG tplG t s = ScaleOut.found bs) (hb : b ∈ bs) :
    b.scale = s ∧ (b.w : ℤ) = scaledW tplG s ∧ (b.h : ℤ) = scaledH tplG s ∧
      b.x + b.w ≤ docG.w ∧ b.y + b.h ≤ docG.h := by
  unfold scaleStep at h
  by_cases h1 : (docG.w : ℤ) < scaledW tplG s ∨ (docG.h : ℤ) < scaledH tplG s
  · rw [if_pos h1] at h; cases h
  · rw [if_neg h1] at h
    by_cases h2 : scaledW tplG s ≤ 0 ∨ scaledH tplG s ≤ 0
    · rw [if_pos h2] at h; cases h
    · rw [if_neg h2] at h
      push_neg at h1 h2
      have hW0 : (0 : ℤ) < scaledW tplG s := h2.1
      have hH0 : (0 : ℤ) < scaledH tplG s := h2.2
      have hW1 : scaledW tplG s ≤ (docG.w : ℤ) := h1.1
      have hH1 : scaledH tplG s ≤ (docG.h : ℤ) := h1.2
      cases hm : matchLocsG docG
          (resizeG tplG (scaledW tplG s).toNat (scaledH tplG s).toNat) t with
      | none => rw [hm] at h; cases h
      | some pts =>
        rw [hm] at h
        have hbs : bs = pts.map fun p =>
            { x := p.1, y := p.2, w := (scaledW tplG s).toNat, h := (scaledH tplG s).toNat,
              scale := s } := by
          injection h with h
          exact h.symm
        subst hbs
        obtain ⟨p, hp, rfl⟩ := List.mem_map.mp hb
        have hg : 0 < (resizeG tplG (scaledW tplG s).toNat (scaledH tplG s).toNat).w ∧
            0 < (resizeG tplG (scaledW tplG s).toNat (scaledH tplG s).toNat).h ∧
            (resizeG tplG (scaledW tplG s).toNat (scaledH tplG s).toNat).w ≤ docG.w ∧
            (resizeG tplG (scaledW tplG s).toNat (scaledH tplG s).toNat).h ≤ docG.h := by
          simp only [resizeG]
          omega
        unfold matchLocsG at hm
        rw [if_pos hg] at hm
        injection hm with hm
        have hpp : p ∈ placements docG.w docG.h
            (resizeG tplG (scaledW tplG s).toNat (scaledH tplG s).toNat).w
            (resizeG tplG (scaledW tplG s).toNat (scaledH tplG s).toNat).h :=
          (List.mem_filter.mp (hm ▸ hp)).1
        have hb1 := mem_placements.mp hpp
        simp only [resizeG] at hb1
        refine ⟨rfl, ?_, ?_, ?_, ?_⟩
        · exact Int.toNat_of_nonneg (le_of_lt hW0)
        · exact Int.toNat_of_nonneg (le_of_lt hH0)
        · show p.1 + (scaledW tplG s).toNat ≤ docG.w
          omega
        · show p.2 + (scaledH tplG s).toNat ≤ docG.h
          omega

/-- Every box of a completed scale loop comes from a found iteration of one of
the scales. -/
theorem runScales_mem {docG tplG : GImage} {t : ℚ} {sc : List ℚ} {bs : List Box}
    (h : runScales docG tplG t sc = PyResult.ret bs) :
    ∀ b ∈ bs, ∃ s ∈ sc, ∃ bs0, scaleStep docG tplG t s = ScaleOut.found bs0 ∧ b ∈ bs0 := by
  induction sc generalizing bs with
  | nil =>
    unfold runScales at h
    injection h with h
    subst h
    intro b hb
    cases hb
  | cons s rest ih =>
    unfold runScales at h
    cases hstep : scaleStep docG tplG t s with
    | err => rw [hstep] at h; cases h
    | skip =>
      rw [hstep] at h
      intro b hb
      obtain ⟨s1, hs1, bs0, hf, hbm⟩ := ih h b hb
      exact ⟨s1, List.mem_cons_of_mem s hs1, bs0, hf, hbm⟩
    | found bs1 =>
      rw [hstep] at h
      cases hrec : runScales docG tplG t rest with
      | raised => rw [hrec] at h; cases h
      | ret more =>
        rw [hrec] at h
        injection h with h
        subst h
        intro b hb
        rcases List.mem_append.mp hb with hl | hr
        · exact ⟨s, List.mem_cons_self s rest, bs1, hstep, hl⟩
        · obtain ⟨s1, hs1, bs0, hf, hbm⟩ := ih hrec b hr
          exact ⟨s1, List.mem_cons_of_mem s hs1, bs0, hf, hbm⟩

/-- If every scale of the list is skipped, the scale loop completes with no
boxes and no error. -/
theorem runScales_all_skip {docG tplG : GImage} {t : ℚ} {sc : List ℚ}
    (h : ∀ s ∈ sc, scaleStep docG tplG t s = ScaleOut.skip) :
    runScales docG tplG t sc = PyResult.ret [] := by
  induction sc with
  | nil => rfl
  | cons s rest ih =>
    unfold runScales
    rw [h s (List.mem_cons_self s rest)]
    exact ih fun s1 hs1 => h s1 (List.mem_cons_of_mem s hs1)

/-- At two thresholds `t₁ ≤ t₂`, one scale iteration skips at both, errs at
both, or finds at both with the higher-threshold boxes a sublist of the
lower-threshold ones. -/
theorem scaleStep_cases {docG tplG : GImage} {t₁ t₂ : ℚ} (h12 : t₁ ≤ t₂) (s : ℚ) :
    (scaleStep docG tplG t₁ s = ScaleOut.skip ∧ scaleStep docG tplG t₂ s = ScaleOut.skip) ∨
    (scaleStep docG tplG t₁ s = ScaleOut.err ∧ scaleStep docG tplG t₂ s = ScaleOut.err) ∨
    (∃ bs₁ bs₂, scaleStep docG tplG t₁ s = ScaleOut.found bs₁ ∧
      scaleStep docG tplG t₂ s = ScaleOut.found bs₂ ∧ bs₂.Sublist bs₁) := by
  unfold scaleStep
  by_cases h1 : (docG.w : ℤ) < scaledW tplG s ∨ (docG.h : ℤ) < scaledH tplG s
  · rw [if_pos h1, if_pos h1]
    exact Or.inl ⟨rfl, rfl⟩
  · rw [if_neg h1, if_neg h1]
    by_cases h2 : scaledW tplG s ≤ 0 ∨ scaledH tplG s ≤ 0
    · rw [if_pos h2, if_pos h2]
      exact Or.inr (Or.inl ⟨rfl, rfl⟩)
    · rw [if_neg h2, if_neg h2]
      unfold matchLocsG
      by_cases hg : 0 < (resizeG tplG (scaledW tplG s).toNat (scaledH tplG s).toNat).w ∧
          0 < (resizeG tplG (scaledW tplG s).toNat (scaledH tplG s).toNat).h ∧
          (resizeG tplG (scaledW tplG s).toNat (scaledH tplG s).toNat).w ≤ docG.w ∧
          (resizeG tplG (scaledW tplG s).toNat (scaledH tplG s).toNat).h ≤ docG.h
      · rw [if_pos hg, if_pos hg]
        refine Or.inr (Or.inr ⟨_, _, rfl, rfl, List.Sublist.map _ ?_⟩)
        exact List.monotone_filter_right _ fun p hp => nccGE_mono h12 hp
      · rw [if_neg hg, if_neg hg]
        exact Or.inr (Or.inl ⟨rfl, rfl⟩)

/-- At two thresholds `t₁ ≤ t₂`, the scale loop raises at both or completes at
both, with the higher-threshold box list a sublist of the lower-threshold one. -/
theorem runScales_rel {docG tplG : GImage} {t₁ t₂ : ℚ} (h12 : t₁ ≤ t₂) :
    ∀ sc : List ℚ,
      (runScales docG tplG t₁ sc = PyResult.raised ∧
        runScales docG tplG t₂ sc = PyResult.raised) ∨
      (∃ bs₁ bs₂, runScales docG tplG t₁ sc = PyResult.ret bs₁ ∧
        runScales docG tplG t₂ sc = PyResult.ret bs₂ ∧ bs₂.Sublist bs₁) := by
  intro sc
  induction sc with
  | nil => exact Or.inr ⟨[], [], rfl, rfl, List.Sublist.refl []⟩
  | cons s rest ih =>
    rcases scaleStep_cases h12 s with ⟨hk1, hk2⟩ | ⟨he1, he2⟩ | ⟨cs₁, cs₂, hf1, hf2, hsub⟩
    · unfold runScales
      rw [hk1, hk2]
      exact ih
    · unfold runScales
      rw [he1, he2]
      exact Or.inl ⟨rfl, rfl⟩
    · unfold runScales
      rw [hf1, hf2]
      rcases ih with ⟨hr1, hr2⟩ | ⟨bs₁, bs₂, hr1, hr2, hsub2⟩
      · rw [hr1, hr2]
        exact Or.inl ⟨rfl, rfl⟩
      · rw [hr1, hr2]
        exact Or.inr ⟨cs₁ ++ bs₁, cs₂ ++ bs₂, rfl, rfl, List.Sublist.append hsub hsub2⟩

/-- A pixel of the redaction drawing loop: the fill color if some box's
corner-inclusive rectangle covers the coordinate, the original pixel
otherwise. -/
theorem redact_px (d : Image) (f : Pix) (boxes : List Box) (x y : ℕ) :
    (redact d boxes f).px x y =
      if ∃ b ∈ boxes, insideClosedBox b x y then f else d.px x y := by
  induction boxes generalizing d with
  | nil => simp [redact]
  | cons b bs ih =>
    show (redact (fillRect d b.x b.y (b.x + b.w) (b.y + b.h) f) bs f).px x y = _
    rw [ih]
    by_cases hbs : ∃ b0 ∈ bs, insideClosedBox b0 x y
    · rw [if_pos hbs,
        if_pos ⟨hbs.choose, List.mem_cons_of_mem b hbs.choose_spec.1, hbs.choose_spec.2⟩]
    · rw [if_neg hbs]
      by_cases hc : insideClosedBox b x y
      · have hfr : (fillRect d b.x b.y (b.x + b.w) (b.y + b.h) f).px x y = f := by
          unfold insideClosedBox at hc
          exact if_pos hc
        rw [hfr, if_pos ⟨b, List.mem_cons_self b bs, hc⟩]
      · have hfr : (fillRect d b.x b.y (b.x + b.w) (b.y + b.h) f).px x y = d.px x y := by
          unfold insideClosedBox at hc
          exact if_neg hc
        rw [hfr, if_neg ?_]
        rintro ⟨b0, hb0, hin⟩
        rcases List.mem_cons.mp hb0 with rfl | hmem
        · exact hc hin
        · exact hbs ⟨b0, hmem, hin⟩

/-- The redaction drawing loop leaves the image dimensions unchanged. -/
theorem redact_dims (d : Image) (f : Pix) (boxes : List Box) :
    (redact d boxes f).w = d.w ∧ (redact d boxes f).h = d.h := by
  induction boxes generalizing d with
  | nil => exact ⟨rfl, rfl⟩
  | cons b bs ih => exact ih (fillRect d b.x b.y (b.x + b.w) (b.y + b.h) f)

theorem insideBox_closed {b : Box} {x y : ℕ} (h : insideBox b x y) : insideClosedBox b x y := by
  unfold insideBox at h
  unfold insideClosedBox
  omega

/-- When every decodable logo of the folder fits in the document, the file loop
completes and pairs each decodable file name with its detection boolean. -/
theorem goFiles_ret (img : Image) (t : ℚ) (files : List (String × Option Image))
    (hf : ∀ p ∈ files, logoFits img p.2 = true) :
    goFiles (grayImage img) t files =
      PyResult.ret (files.filterMap fun p =>
        p.2.map fun l => (p.1, grayAnyB (grayImage img) (grayImage l) t)) := by
  induction files with
  | nil => rfl
  | cons p rest ih =>
    obtain ⟨nm, ol⟩ := p
    cases ol with
    | none =>
      show goFiles (grayImage img) t ((nm, none) :: rest) = _
      unfold goFiles
      rw [ih fun q hq => hf q (List.mem_cons_of_mem _ hq)]
      simp [List.filterMap_cons]
    | some l =>
      have hfit := hf (nm, some l) (List.mem_cons_self _ _)
      unfold logoFits at hfit
      simp only [Bool.and_eq_true, decide_eq_true_eq] at hfit
      have hg : 0 < (grayImage l).w ∧ 0 < (grayImage l).h ∧
          (grayImage l).w ≤ (grayImage img).w ∧ (grayImage l).h ≤ (grayImage img).h :=
        ⟨hfit.1.1.1, hfit.1.1.2, hfit.1.2, hfit.2⟩
      show goFiles (grayImage img) t ((nm, some l) :: rest) = _
      unfold goFiles grayAnyGE
      rw [if_pos hg, ih fun q hq => hf q (List.mem_cons_of_mem _ hq)]
      simp [List.filterMap_cons]

/-! ### The claims -/

/-- Claim C1: for every document image, template image, scale sequence and
threshold, every BoundingBox in the DetectionResult of `detect_logos` lies
fully inside the document: `0 ≤ x`, `0 ≤ y`, `x + width ≤ docWidth` and
`y + height ≤ docHeight`. -/
theorem C1_boxes_within_document (D T : Image) (sc : List ℚ) (t : ℚ) (bs : List Box) (b : Box)
    (h : resultBoxes (detectLogos D T sc t) = some bs) (hb : b ∈ bs) :
    0 ≤ b.x ∧ 0 ≤ b.y ∧ b.x + b.w ≤ D.w ∧ b.y + b.h ≤ D.h := by
  rw [resultBoxes_detectLogos] at h
  cases hr : runScales (grayImage D) (grayImage T) t sc with
  | raised => rw [hr] at h; cases h
  | ret bs0 =>
    rw [hr] at h
    injection h with h
    subst h
    obtain ⟨s, _, bs1, hf, hbm⟩ := runScales_mem hr b hb
    have hm := scaleStep_found_mem hf hbm
    exact ⟨Nat.zero_le _, Nat.zero_le _, hm.2.2.2.1, hm.2.2.2.2⟩

unseal Rat.add Rat.mul Rat.inv Rat.sub in
theorem C1_witness :
    resultBoxes (detectLogos imgD imgD [1] (3 / 5)) = some [bx1] ∧
    (0 ≤ bx1.x ∧ 0 ≤ bx1.y ∧ bx1.x + bx1.w ≤ imgD.w ∧ bx1.y + bx1.h ≤ imgD.h) :=
  ⟨by decide, C1_boxes_within_document imgD imgD [1] (3 / 5) [bx1] bx1 (by decide) (by decide)⟩

unseal Rat.add Rat.mul Rat.inv Rat.sub in
/-- Claim C2, counterexample: the boolean presence check `detect_logo` matches
full-color images, so two (document, template) pairs with pixel-identical
luminance channels but different color channels can produce different
detection results — refuting the claim that all detection results depend on
luminance only. -/
theorem C2_counterexample :
    lumEq imgE1 imgE2 ∧ imgE1.px 0 0 ≠ imgE2.px 0 0 ∧
    detectLogo (some imgE1) (some imgE1) = true ∧
    detectLogo (some imgE1) (some imgE2) = false :=
  ⟨by decide, by decide, by decide, by decide⟩

/-- Claim C2, amended: the multi-scale `detect_logos` (the spec's `locate`)
does convert both images to grayscale first, so its boxes depend only on the
luminance channels; but `detect_logo` and `redact_logo_from_image` match
full-color pixels, and their results may differ between luminance-identical
inputs. -/
theorem C2_amended_locate_luminance_only (D1 D2 T1 T2 : Image) (sc : List ℚ) (t : ℚ)
    (hD : lumEq D1 D2) (hT : lumEq T1 T2) :
    resultBoxes (detectLogos D1 T1 sc t) = resultBoxes (detectLogos D2 T2 sc t) := by
  rw [resultBoxes_detectLogos, resultBoxes_detectLogos,
    grayImage_congr hD, grayImage_congr hT]

unseal Rat.add Rat.mul Rat.inv Rat.sub in
theorem C2_witness :
    lumEq imgE1 imgE2 ∧
    resultBoxes (detectLogos imgE1 imgE1 [1] (3 / 5)) =
      resultBoxes (detectLogos imgE2 imgE2 [1] (3 / 5)) :=
  ⟨by decide,
    C2_amended_locate_luminance_only imgE1 imgE2 imgE1 imgE2 [1] (3 / 5) (by decide) (by decide)⟩

/-- Claim C3, counterexample: a decode failure (modelled as `none`) is turned
into the in-band answers `False` (from `detect_logo`) and `None` (from
`redact_logo_from_image`) instead of an explicitly surfaced decode error —
refuting the claim that a decode failure is never silently converted into a
false/None answer. -/
theorem C3_counterexample :
    detectLogo none (some imgD) = false ∧
    redactLogoFromImage none (some imgD) (4 / 5) = PyResult.ret none :=
  ⟨rfl, rfl⟩

/-- Claim C3, amended: when either image fails to decode, `detect_logo` logs
and returns `False` and `redact_logo_from_image` logs and returns `None`; the
failure is reported in-band as a sentinel value (indistinguishable at the call
signature from a legitimate no-detection answer), not surfaced as an error. -/
theorem C3_amended_decode_sentinel (od ot : Option Image) (t : ℚ)
    (h : od = none ∨ ot = none) :
    detectLogo od ot = false ∧ redactLogoFromImage od ot t = PyResult.ret none := by
  rcases h with rfl | rfl
  · cases ot <;> exact ⟨rfl, rfl⟩
  · cases od <;> exact ⟨rfl, rfl⟩

theorem C3_witness :
    detectLogo (some imgD) none = false ∧
    redactLogoFromImage (some imgD) none (4 / 5) = PyResult.ret none :=
  C3_amended_decode_sentinel (some imgD) none (4 / 5) (Or.inr rfl)

/-- Claim C4: `detect_logos` never mutates its document or template (the state
it returns holds both unchanged — rectangles are drawn on a copy), and it is
deterministic: two calls on pixel-identical documents and templates with the
same scales and threshold return identical DetectionResults. -/
theorem C4_pure_and_deterministic (D1 D2 T1 T2 : Image) (sc : List ℚ) (t : ℚ)
    (hD : pixelEq D1 D2) (hT : pixelEq T1 T2) :
    resultBoxes (detectLogos D1 T1 sc t) = resultBoxes (detectLogos D2 T2 sc t) ∧
    retDoc (detectLogos D1 T1 sc t) =
      (resultBoxes (detectLogos D1 T1 sc t)).map (fun _ => D1) ∧
    retTpl (detectLogos D1 T1 sc t) =
      (resultBoxes (detectLogos D1 T1 sc t)).map (fun _ => T1) := by
  refine ⟨?_, retDoc_detectLogos D1 T1 sc t, retTpl_detectLogos D1 T1 sc t⟩
  rw [resultBoxes_detectLogos, resultBoxes_detectLogos,
    grayImage_congr (pixelEq_lumEq hD), grayImage_congr (pixelEq_lumEq hT)]

unseal Rat.add Rat.mul Rat.inv Rat.sub in
theorem C4_witness :
    resultBoxes (detectLogos imgD imgD [1] (3 / 5)) =
      resultBoxes (detectLogos imgD2 imgD2 [1] (3 / 5)) ∧
    retDoc (detectLogos imgD imgD [1] (3 / 5)) =
      (resultBoxes (detectLogos imgD imgD [1] (3 / 5))).map (fun _ => imgD) ∧
    retTpl (detectLogos imgD imgD [1] (3 / 5)) =
      (resultBoxes (detectLogos imgD imgD [1] (3 / 5))).map (fun _ => imgD) :=
  C4_pure_and_deterministic imgD imgD2 imgD imgD2 [1] (3 / 5) (by decide) (by decide)

/-- Claim C5: for a fixed document, template and scale list, the boxes returned
at a higher threshold form a sub-collection of those returned at a lower
threshold — raising the threshold never increases the number of boxes. -/
theorem C5_threshold_monotone (D T : Image) (sc : List ℚ) (t1 t2 : ℚ) (bs2 : List Box)
    (h12 : t1 ≤ t2) (h2 : resultBoxes (detectLogos D T sc t2) = some bs2) :
    (resultBoxes (detectLogos D T sc t1)).isSome = true ∧
    (∀ b ∈ bs2, b ∈ boxesOf (detectLogos D T sc t1)) ∧
    bs2.length ≤ (boxesOf (detectLogos D T sc t1)).length := by
  rw [resultBoxes_detectLogos] at h2
  rcases @runScales_rel (grayImage D) (grayImage T) t1 t2 h12 sc with
    ⟨hr1, hr2⟩ | ⟨bs1, bs2x, hr1, hr2, hsub⟩
  · rw [hr2] at h2; cases h2
  · rw [hr2] at h2
    injection h2 with h2
    subst h2
    have hb : boxesOf (detectLogos D T sc t1) = bs1 := by
      unfold boxesOf
      rw [resultBoxes_detectLogos, hr1]
      rfl
    rw [hb]
    refine ⟨?_, fun b hbm => hsub.subset hbm, hsub.length_le⟩
    rw [resultBoxes_detectLogos, hr1]
    rfl

unseal Rat.add Rat.mul Rat.inv Rat.sub in
theorem C5_witness :
    (resultBoxes (detectLogos imgD imgD [1] (3 / 5))).isSome = true ∧
    (∀ b ∈ [bx1], b ∈ boxesOf (detectLogos imgD imgD [1] (3 / 5))) ∧
    ([bx1] : List Box).length ≤ (boxesOf (detectLogos imgD imgD [1] (3 / 5))).length :=
  C5_threshold_monotone imgD imgD [1] (3 / 5) (4 / 5) [bx1] (by decide) (by decide)

/-- Claim C6: `detect_logo(D, T)` (threshold 0.8) returns true exactly when the
single-scale threshold-0.8 match set — the DetectionResult that
`redact_logo_from_image` computes over the same full-color score map — is
non-empty. -/
theorem C6_presence_iff_nonempty (d t : Image) :
    detectLogo (some d) (some t) = true ↔
      ∃ pts, colorMatchLocs d t (4 / 5) = some pts ∧ pts ≠ [] := by
  show (colorAnyGE d t (4 / 5)).getD false = true ↔ _
  unfold colorAnyGE colorMatchLocs
  by_cases hg : 0 < t.w ∧ 0 < t.h ∧ t.w ≤ d.w ∧ t.h ≤ d.h
  · rw [if_pos hg, if_pos hg]
    simp only [Option.getD_some, Option.some.injEq]
    rw [List.any_eq_true]
    constructor
    · rintro ⟨p, hp, hge⟩
      refine ⟨_, rfl, fun hnil => ?_⟩
      rw [List.filter_eq_nil_iff] at hnil
      exact hnil p hp hge
    · rintro ⟨pts, hpts, hne⟩
      rcases List.exists_mem_of_ne_nil pts hne with ⟨p, hp⟩
      rw [← hpts] at hp
      have hmf := List.mem_filter.mp hp
      exact ⟨p, hmf.1, hmf.2⟩
  · rw [if_neg hg, if_neg hg]
    simp

/-- Claim C7, counterexample: `cv2.rectangle` fills both corners inclusively,
so redacting the 1-by-1 box at the origin also blacks the pixel at `(1, 1)`,
which lies outside the box — refuting the claim that every pixel outside all
boxes keeps its original value. -/
theorem C7_counterexample :
    ¬ insideBox bx 1 1 ∧ 1 < imgW3.w ∧ 1 < imgW3.h ∧
    (redact imgW3 [bx] black).px 1 1 = black ∧ imgW3.px 1 1 ≠ black := by
  refine ⟨by decide, by decide, by decide, by decide, by decide⟩

/-- Claim C7, amended: redaction fills every pixel inside a box with the fill
color, but the filled region is the corner-inclusive rectangle
`[x, x+w] × [y, y+h]` (one pixel wider and taller than the box, as
`cv2.rectangle` includes both corners); pixels outside all of these closed
rectangles are unchanged, and redacting with no boxes returns the document
unchanged. -/
theorem C7_amended_inclusive_fill :
    (∀ (d : Image) (boxes : List Box) (x y : ℕ),
      ((∃ b ∈ boxes, insideBox b x y) → (redact d boxes black).px x y = black) ∧
      ((∀ b ∈ boxes, ¬ insideClosedBox b x y) → (redact d boxes black).px x y = d.px x y)) ∧
    (∀ d : Image, redact d [] black = d) := by
  constructor
  · intro d boxes x y
    constructor
    · rintro ⟨b, hb, hin⟩
      rw [redact_px, if_pos ⟨b, hb, insideBox_closed hin⟩]
    · intro hall
      rw [redact_px, if_neg ?_]
      rintro ⟨b, hb, hin⟩
      exact hall b hb hin
  · intro d
    rfl

theorem C7_witness :
    (redact imgW3 [bx] black).px 0 0 = black ∧
    (redact imgW3 [bx] black).px 2 2 = imgW3.px 2 2 ∧
    redact imgW3 [] black = imgW3 :=
  ⟨(C7_amended_inclusive_fill.1 imgW3 [bx] 0 0).1 ⟨bx, by decide, by decide⟩,
    (C7_amended_inclusive_fill.1 imgW3 [bx] 2 2).2 (by decide),
    C7_amended_inclusive_fill.2 imgW3⟩

/-- Claim C8: a scale whose truncated scaled template dimensions exceed the
document is skipped (no box of the result carries it), and when every scale of
the list is skipped this way `detect_logos` returns an empty DetectionResult
rather than failing. -/
theorem C8_skip_oversized_scales :
    (∀ (D T : Image) (sc : List ℚ) (t s : ℚ) (bs : List Box) (b : Box),
      resultBoxes (detectLogos D T sc t) = some bs → s ∈ sc → skipCond D T s →
      b ∈ bs → b.scale ≠ s) ∧
    (∀ (D T : Image) (sc : List ℚ) (t : ℚ), (∀ s ∈ sc, skipCond D T s) →
      resultBoxes (detectLogos D T sc t) = some []) := by
  constructor
  · intro D T sc t s bs b h hs hskip hb
    rw [resultBoxes_detectLogos] at h
    cases hr : runScales (grayImage D) (grayImage T) t sc with
    | raised => rw [hr] at h; cases h
    | ret bs0 =>
      rw [hr] at h
      injection h with h
      subst h
      obtain ⟨s1, _, bs1, hf, hbm⟩ := runScales_mem hr b hb
      have hsc := (scaleStep_found_mem hf hbm).1
      intro hbs
      rw [hbs] at hsc
      rw [← hsc] at hf
      rw [@scaleStep_skip (grayImage D) (grayImage T) t s hskip] at hf
      cases hf
  · intro D T sc t h
    rw [resultBoxes_detectLogos,
      runScales_all_skip fun s hs => @scaleStep_skip (grayImage D) (grayImage T) t s (h s hs)]

unseal Rat.add Rat.mul Rat.inv Rat.sub in
theorem C8_witness :
    bx1.scale ≠ (3 / 2 : ℚ) ∧
    resultBoxes (detectLogos img1 imgBig [1, 3 / 2] (3 / 5)) = some [] :=
  ⟨C8_skip_oversized_scales.1 imgD imgD [1, 3 / 2] (3 / 5) (3 / 2) [bx1] bx1
      (by decide) (by decide) (by decide) (by decide),
    C8_skip_oversized_scales.2 img1 imgBig [1, 3 / 2] (3 / 5) (by decide)⟩

unseal Rat.add Rat.mul Rat.inv Rat.sub in
/-- Claim C9, counterexample: at scale 0.5 a template of width 3 is resized to
width `int(3 * 0.5) = 1`, not `round(3 * 0.5) = 2` — the code truncates the
scaled dimensions, refuting the claim that it rounds them to the nearest
integer. -/
theorem C9_counterexample :
    resultBoxes (detectLogos imgD4 imgT32 [1 / 2] 0) =
      some [{ x := 0, y := 0, w := 1, h := 1, scale := 1 / 2 },
        { x := 1, y := 0, w := 1, h := 1, scale := 1 / 2 },
        { x := 0, y := 1, w := 1, h := 1, scale := 1 / 2 },
        { x := 1, y := 1, w := 1, h := 1, scale := 1 / 2 }] ∧
    imgT32.w = 3 ∧ round ((imgT32.w : ℚ) * (1 / 2)) = 2 ∧
    (({ x := 0, y := 0, w := 1, h := 1, scale := 1 / 2 } : Box).w : ℤ) ≠
      round ((imgT32.w : ℚ) * (1 / 2)) :=
  ⟨by decide, rfl, by decide, by decide⟩

/-- Claim C9, amended: at each scale `s`, `detect_logos` resizes the template
to `(int(origWidth * s), int(origHeight * s))` — truncating toward zero, not
rounding to the nearest integer — and every returned box carries those
truncated dimensions. -/
theorem C9_amended_truncated_resize (D T : Image) (sc : List ℚ) (t : ℚ) (bs : List Box)
    (b : Box) (h : resultBoxes (detectLogos D T sc t) = some bs) (hb : b ∈ bs) :
    b.scale ∈ sc ∧ (b.w : ℤ) = pyInt ((T.w : ℚ) * b.scale) ∧
      (b.h : ℤ) = pyInt ((T.h : ℚ) * b.scale) := by
  rw [resultBoxes_detectLogos] at h
  cases hr : runScales (grayImage D) (grayImage T) t sc with
  | raised => rw [hr] at h; cases h
  | ret bs0 =>
    rw [hr] at h
    injection h with h
    subst h
    obtain ⟨s, hs, bs1, hf, hbm⟩ := runScales_mem hr b hb
    obtain ⟨hsc, hw, hh, -, -⟩ := scaleStep_found_mem hf hbm
    refine ⟨hsc ▸ hs, ?_, ?_⟩
    · rw [hsc]
      exact hw
    · rw [hsc]
      exact hh

unseal Rat.add Rat.mul Rat.inv Rat.sub in
theorem C9_witness :
    bx1.scale ∈ [(1 : ℚ)] ∧ (bx1.w : ℤ) = pyInt ((imgD.w : ℚ) * bx1.scale) ∧
      (bx1.h : ℤ) = pyInt ((imgD.h : ℚ) * bx1.scale) :=
  C9_amended_truncated_resize imgD imgD [1] (3 / 5) [bx1] bx1 (by decide) (by decide)

/-- Claim C10, counterexample: the folder-based `detect_logos` can raise at its
public interface — a decodable logo larger than the input image makes
`cv2.matchTemplate` raise, and nothing catches it — refuting the claim that it
never raises for any input image. -/
theorem C10_counterexample :
    detectLogosFolder img1 (some folderBad) (4 / 5) = PyResult.raised := by
  decide

/-- Claim C10, amended: provided every decodable logo of the folder is
non-empty and fits within the input image, the folder-based `detect_logos`
does not raise: it returns an empty mapping when the folder does not exist,
silently skips files that fail to decode, and maps each decodable file, in
folder order, to whether some match location reaches the threshold; a
decodable logo exceeding the image dimensions instead makes the underlying
template match raise, which propagates. -/
theorem C10_amended_folder_detection :
    (∀ (img : Image) (t : ℚ), detectLogosFolder img none t = PyResult.ret []) ∧
    (∀ (img : Image) (files : List (String × Option Image)) (t : ℚ),
      (∀ p ∈ files, logoFits img p.2 = true) →
      detectLogosFolder img (some files) t =
        PyResult.ret (files.filterMap fun p =>
          p.2.map fun l => (p.1, grayAnyB (grayImage img) (grayImage l) t))) := by
  constructor
  · intro img t
    rfl
  · intro img files t hf
    exact goFiles_ret img t files hf

theorem C10_witness :
    detectLogosFolder imgD none (4 / 5) = PyResult.ret [] ∧
    detectLogosFolder imgD (some folderOk) (4 / 5) =
      PyResult.ret (folderOk.filterMap fun p =>
        p.2.map fun l => (p.1, grayAnyB (grayImage imgD) (grayImage l) (4 / 5))) :=
  ⟨C10_amended_folder_detection.1 imgD (4 / 5),
    C10_amended_folder_detection.2 imgD folderOk (4 / 5) (by decide)⟩
